import Mathlib

/-!
Verification of the procedural background-synthesis pipeline in
`src/rendering/randomLib/random_background.py` (functions `random_color`,
`mix`, `random_image`, `rand_background`), together with models of the
`turbulence` and `metaballs` modules that the file imports but that are not
part of the available sources.

Python floats are embedded as rationals, numpy arrays as dimension-carrying
structures over total data functions, and the process-wide random source as
an explicit stream of draws in `[0,1)`.  Numpy elementwise operations carry
their broadcasting behaviour: a binary operation on mismatched,
non-broadcastable spatial dimensions fails with a `ValueError`.
-/

/-- The sequence of uniform draws produced by `np.random`: draw `n` is the
`n`-th float the process-wide generator returns. -/
def RandStream : Type := Nat → ℚ

/-- Every draw of `np.random.uniform()` lies in `[0, 1)`. -/
def validStream (s : RandStream) : Prop := ∀ n, 0 ≤ s n ∧ s n < 1

/-- `np.random.uniform(a, b)` maps draw `k` affinely into `[a, b)`. -/
def uniformAB (a b : ℚ) (s : RandStream) (k : Nat) : ℚ := a + (b - a) * s k

/-- A square 2D scalar array (`ScalarGrid`): side length and cell values. -/
structure Grid where
  n : Nat
  data : Nat → Nat → ℚ

/-- A 3-channel image array of spatial shape `rows × cols × 3`. -/
structure Arr3 where
  rows : Nat
  cols : Nat
  data : Nat → Nat → Fin 3 → ℚ

/-- Errors observable from the embedded code: `valueError` is numpy's
`ValueError` on non-broadcastable shapes; the two named dimension errors are
the error classes the specification's taxonomy postulates. -/
inductive PyError where
  | valueError
  | invalidDimensionError
  | dimensionMismatchError
  deriving DecidableEq

/-- Index adjustment of numpy broadcasting: an axis of extent 1 is read at
index 0 whatever the position. -/
def bidx (n i : Nat) : Nat := if n = 1 then 0 else i

/-- Numpy broadcast of two axis extents: equal extents or an extent of 1. -/
def bcast (a b : Nat) : Option Nat :=
  if a = b then some a else if a = 1 then some b else if b = 1 then some a else none

/-- Elementwise binary operation of two arrays with numpy broadcasting on the
two spatial axes; non-broadcastable shapes raise `ValueError`. -/
def npBin (f : ℚ → ℚ → ℚ) (x y : Arr3) : Except PyError Arr3 :=
  match bcast x.rows y.rows, bcast x.cols y.cols with
  | some r, some c =>
      .ok ⟨r, c, fun i j ch =>
        f (x.data (bidx x.rows i) (bidx x.cols j) ch) (y.data (bidx y.rows i) (bidx y.cols j) ch)⟩
  | _, _ => .error .valueError

/-- `x * y` on arrays. -/
def npMul (x y : Arr3) : Except PyError Arr3 := npBin (fun a b => a * b) x y

/-- `x + y` on arrays. -/
def npAdd (x y : Arr3) : Except PyError Arr3 := npBin (fun a b => a + b) x y

/-- `1 - mask`: scalar minus array, always defined. -/
def npOneSub (x : Arr3) : Arr3 := ⟨x.rows, x.cols, fun i j c => 1 - x.data i j c⟩

/-- `array * scalar`, always defined. -/
def npScale (x : Arr3) (m : ℚ) : Arr3 := ⟨x.rows, x.cols, fun i j c => x.data i j c * m⟩

/-- `np.zeros([r, c, 3])`. -/
def np_zeros (r c : Nat) : Arr3 := ⟨r, c, fun _ _ _ => 0⟩

/-- `a[:,:,ch] = g`: overwrite one colour channel of an array. -/
def setChan (a : Arr3) (ch : Fin 3) (g : Nat → Nat → ℚ) : Arr3 :=
  ⟨a.rows, a.cols, fun i j c => if c = ch then g i j else a.data i j c⟩

/-- Modelled from the spec: the repository's `turbulence` module is not among
the available sources; its `generate_noise` contract says each cell of an
`n × n` grid is an independent uniform draw.  `noiseGrid` is the grid of the
draws `s k, s (k+1), …` laid out row-major. -/
def noiseGrid (n : Nat) (s : RandStream) (k : Nat) : Grid :=
  ⟨n, fun i j => s (k + i * n + j)⟩

/-- Modelled from the spec: `generate_noise(size)` returns a `size × size`
grid of independent uniform draws from `[0,1]` and fails with
`InvalidDimensionError` if `size <= 0`. -/
def generate_noise (size : Int) (s : RandStream) (k : Nat) : Except PyError Grid :=
  if size ≤ 0 then .error .invalidDimensionError else .ok (noiseGrid size.toNat s k)

/-- Indices of the window of radius `w` around `i`, truncated to `[0, n)`
(the spec's boundary policy: clamped at the grid edge, no wraparound). -/
def winIdx (n w i : Nat) : List Nat :=
  (List.range n).filter (fun t => decide (i - w ≤ t ∧ t ≤ i + w))

/-- Modelled from the spec: `smooth(noise, window)` (the module's
`smoothNoise`) replaces every cell by the plain average of the cells in the
window-radius neighbourhood, truncated at the grid boundary. -/
def smoothNoise (g : Grid) (w : Nat) : Grid :=
  ⟨g.n, fun i j =>
    ((winIdx g.n w i).map (fun a => ((winIdx g.n w j).map (fun b => g.data a b)).sum)).sum /
      (((winIdx g.n w i).length * (winIdx g.n w j).length : Nat) : ℚ)⟩

/-- Modelled from the spec: `turbulence(size, depth, initial_scale)` sums
`depth` octaves of smoothed noise.  Octave `m` smooths the base noise grid at
the strictly monotone scale `initial_scale * 2^m` with weight `1/2^m`, and
the accumulated sum is divided by the sum of the weights so the result stays
in `[0,1]`. -/
def turbulence (size depth initial_scale : Nat) (s : RandStream) (k : Nat) : Grid :=
  let base := noiseGrid size s k
  ⟨size, fun i j =>
    (((List.range depth).map
        (fun m => (1 / 2 ^ m : ℚ) * (smoothNoise base (initial_scale * 2 ^ m)).data i j)).sum) /
      (((List.range depth).map (fun m => (1 / 2 ^ m : ℚ))).sum)⟩

/-- Modelled from the spec: `turbulence_rgb(size)` invokes `turbulence`
independently per channel with independently drawn randomness (here with the
depth 7 and initial scale 3 that the repository's tests exercise). -/
def turbulence_rgb (size : Nat) (s : RandStream) (k : Nat) : Arr3 :=
  ⟨size, size, fun i j c => (turbulence size 7 3 s (k + c.val * (size * size))).data i j⟩

/-- Number of draws `turbulence_rgb` consumes: one noise grid per channel. -/
def turbDraws (size : Nat) : Nat := 3 * (size * size)

/-- Modelled from the spec: the falloff kernel of one metaball influence
source, a decreasing rational function of squared Euclidean distance, maximal
at distance 0 and vanishing as the distance grows. -/
def falloff (scale d2 : ℚ) : ℚ := scale ^ 2 / (scale ^ 2 + d2)

/-- Modelled from the spec: the summed falloff contributions of `count`
uniformly placed metaball sources at cell `(i, j)`; source `m` consumes the
draws `k + 2m` and `k + 2m + 1` for its position. -/
def metaballTotal (width height count : Nat) (radius_scale : ℚ) (s : RandStream) (k i j : Nat) :
    ℚ :=
  ((List.range count).map (fun m =>
    falloff radius_scale
      (((i : ℚ) - (width : ℚ) * s (k + 2 * m)) ^ 2 +
        ((j : ℚ) - (height : ℚ) * s (k + 2 * m + 1)) ^ 2))).sum

/-- Modelled from the spec: the repository's `metaballs` module is not among
the available sources; `random_metaball(width, height, count, radius_scale)`
places `count` sources uniformly in the domain, sums their falloff
contributions per cell, and squashes the total into `[0,1]` (sigmoid-style
normalization `t / (1 + t)`).  Consumes two draws per source. -/
def random_metaball (width height count : Nat) (radius_scale : ℚ) (s : RandStream) (k : Nat) :
    Nat → Nat → ℚ :=
  fun i j =>
    metaballTotal width height count radius_scale s k i j /
      (1 + metaballTotal width height count radius_scale s k i j)

/-- `random_color(L)`: a solid image; channel `i` is `uniform() * ones`. -/
def random_color (L : Nat) (s : RandStream) (k : Nat) : Arr3 :=
  ⟨L, L, fun _ _ c => s (k + c.val)⟩

/-- The blend mask `mix` builds: zeros, then channel 0 is assigned the
metaball field for a freshly drawn `ball_size ∈ [0.1, 0.5)`, and channels 1
and 2 are assigned copies of channel 0. -/
def mixMask (size : Nat) (s : RandStream) (k : Nat) : Arr3 :=
  let mask0 := np_zeros size size
  let ball_size := uniformAB (1 / 10) (1 / 2) s k
  let mb := random_metaball size size 4 ball_size s (k + 1)
  let mask1 := setChan mask0 0 mb
  let mask2 := setChan mask1 1 (fun i j => mask1.data i j 0)
  let mask3 := setChan mask2 2 (fun i j => mask2.data i j 0)
  mask3

/-- The blend expression `img1*(1-mask) + img2*mask` returned by `mix`
(line 27 of `random_background.py`), with numpy's left-to-right evaluation
and error behaviour. -/
def blendExpr (img1 img2 mask : Arr3) : Except PyError Arr3 :=
  match npMul img1 (npOneSub mask) with
  | .error e => .error e
  | .ok a =>
    match npMul img2 mask with
    | .error e => .error e
    | .ok b => npAdd a b

/-- `mix(img1, img2, size)`: build the metaball mask, then blend.  Consumes
nine draws (one `ball_size`, four source positions). -/
def mix (img1 img2 : Arr3) (size : Nat) (s : RandStream) (k : Nat) : Except PyError Arr3 :=
  blendExpr img1 img2 (mixMask size s k)

/-- `random_image(size)`: one draw decides between a solid random colour
(`r > 0.5`) and a turbulence image scaled by `uniform(0, 2.0)`.  Returns the
image together with the index of the next unconsumed draw. -/
def random_image (size : Nat) (s : RandStream) (k : Nat) : Arr3 × Nat :=
  if 1 / 2 < s k then (random_color size s (k + 1), k + 4)
  else
    (npScale (turbulence_rgb size s (k + 1)) (uniformAB 0 2 s (k + 1 + turbDraws size)),
      k + 1 + turbDraws size + 1)

/-- The blending loop of `rand_background`: `N` times draw a second image and
blend it into the accumulator via `mix` (which consumes nine draws). -/
def randBGAux (size : Nat) (s : RandStream) : Nat → Arr3 → Nat → Except PyError Arr3
  | 0, T, _ => .ok T
  | Nat.succ n, T, k =>
    match mix T (random_image size s k).1 size s (random_image size s k).2 with
    | .ok T2 => randBGAux size s n T2 ((random_image size s k).2 + 9)
    | .error e => .error e

/-- `rand_background(N, size)` (the spec's `random_background(layers, size)`):
draw a base image, then blend `N` random layers into it. -/
def rand_background (N size : Nat) (s : RandStream) : Except PyError Arr3 :=
  randBGAux size s N (random_image size s 0).1 (random_image size s 0).2

/-- Invariant carried through the blending loop: the accumulator is a
`size × size` image all of whose values lie in `[0, 2)`. -/
def InRange2 (T : Arr3) (size : Nat) : Prop :=
  T.rows = size ∧ T.cols = size ∧ ∀ i j c, 0 ≤ T.data i j c ∧ T.data i j c < 2

/-- Sum of `f 0, …, f (n-1)`. -/
def rowSum (n : Nat) (f : Nat → ℚ) : ℚ := ((List.range n).map f).sum

/-- Mean of `f 0, …, f (n-1)`. -/
def rowMean (n : Nat) (f : Nat → ℚ) : ℚ := rowSum n f / n

/-- Population variance of `f 0, …, f (n-1)` (`np.var` of a vector). -/
def rowVar (n : Nat) (f : Nat → ℚ) : ℚ := rowSum n (fun j => (f j - rowMean n f) ^ 2) / n

/-- Mean of all cells of a grid (`np.mean`). -/
def gridMean (g : Grid) : ℚ :=
  rowSum g.n (fun i => rowSum g.n (fun j => g.data i j)) / ((g.n * g.n : Nat) : ℚ)

/-- Population variance of all cells of a grid (`np.var`). -/
def gridVar (g : Grid) : ℚ :=
  rowSum g.n (fun i => rowSum g.n (fun j => (g.data i j - gridMean g) ^ 2)) / ((g.n * g.n : Nat) : ℚ)

/-- One-dimensional truncated-window average of a row pattern, the form
`smoothNoise` takes on a grid whose rows are all equal. -/
def smoothRow (n w : Nat) (f : Nat → ℚ) (j : Nat) : ℚ :=
  ((winIdx n w j).map f).sum / ((winIdx n w j).length : ℚ)

/-- A concrete valid random stream: every draw is `1/2`. -/
def halfS : RandStream := fun _ => 1 / 2

/-- A concrete valid random stream whose first draw forces the turbulence
branch of `random_image` and whose later draws are `9/10`. -/
def c1s : RandStream := fun n => if n = 0 then 0 else 9 / 10

/-- A constant square 3-channel array. -/
def constArr (n : Nat) (q : ℚ) : Arr3 := ⟨n, n, fun _ _ _ => q⟩

/-- A constant square grid. -/
def gridConst (n : Nat) (q : ℚ) : Grid := ⟨n, fun _ _ => q⟩

/-- Cell values (hundredths) of a row pattern on which window-1 smoothing
with truncated boundaries increases the population variance. -/
def cexList : List ℚ :=
  [85/100, 1, 92/100, 89/100, 85/100, 82/100, 78/100, 75/100, 71/100, 68/100,
   64/100, 61/100, 57/100, 54/100, 50/100, 46/100, 43/100, 39/100, 36/100,
   32/100, 29/100, 25/100, 22/100, 18/100, 15/100, 11/100, 8/100, 0, 15/100]

/-- The counterexample row pattern as a function. -/
def cexRow (j : Nat) : ℚ := cexList.getD j 0

/-- The 29×29 grid whose every row is the counterexample pattern. -/
def cexGrid : Grid := ⟨29, fun _ j => cexRow j⟩

/-! ### List-sum helpers -/

theorem listSum_map_nonneg {α : Type} (l : List α) (f : α → ℚ) (h : ∀ a ∈ l, 0 ≤ f a) :
    0 ≤ (l.map f).sum := by
  induction l with
  | nil => simp
  | cons x xs ih =>
    simp only [List.map_cons, List.sum_cons]
    have hx := h x (List.mem_cons_self x xs)
    have hxs := ih (fun a ha => h a (List.mem_cons_of_mem x ha))
    linarith

theorem listSum_map_le {α : Type} (l : List α) (f g : α → ℚ) (h : ∀ a ∈ l, f a ≤ g a) :
    (l.map f).sum ≤ (l.map g).sum := by
  induction l with
  | nil => simp
  | cons x xs ih =>
    simp only [List.map_cons, List.sum_cons]
    have hx := h x (List.mem_cons_self x xs)
    have hxs := ih (fun a ha => h a (List.mem_cons_of_mem x ha))
    linarith

theorem listSum_map_const {α : Type} (l : List α) (c : ℚ) :
    (l.map (fun _ => c)).sum = l.length * c := by
  induction l with
  | nil => simp
  | cons x xs ih =>
    simp only [List.map_cons, List.sum_cons, List.length_cons, ih]
    push_cast
    ring

theorem listMap_congr {α β : Type} (l : List α) (f g : α → β) (h : ∀ a ∈ l, f a = g a) :
    l.map f = l.map g := by
  induction l with
  | nil => rfl
  | cons x xs ih =>
    simp only [List.map_cons]
    rw [h x (List.mem_cons_self x xs), ih (fun a ha => h a (List.mem_cons_of_mem x ha))]

/-! ### Broadcasting-index helpers -/

theorem bidx_lt {n i : Nat} (h : i < n) : bidx n i = i := by
  unfold bidx
  split
  · omega
  · rfl

theorem bidx_bidx (n i : Nat) : bidx n (bidx n i) = bidx n i := by
  unfold bidx
  split <;> simp [*]

theorem bcast_self (a : Nat) : bcast a a = some a := by
  simp [bcast]

theorem bcast_none {a b : Nat} (hab : a ≠ b) (ha : a ≠ 1) (hb : b ≠ 1) : bcast a b = none := by
  simp [bcast, hab, ha, hb]

theorem npBin_core (f : ℚ → ℚ → ℚ) (r c : Nat) (d1 d2 : Nat → Nat → Fin 3 → ℚ) :
    npBin f ⟨r, c, d1⟩ ⟨r, c, d2⟩ =
      .ok ⟨r, c, fun i j ch => f (d1 (bidx r i) (bidx c j) ch) (d2 (bidx r i) (bidx c j) ch)⟩ := by
  simp [npBin, bcast]

/-- The value of the line-27 blend expression on three same-shaped arrays. -/
theorem blendExpr_core (r c : Nat) (d1 d2 dm : Nat → Nat → Fin 3 → ℚ) :
    blendExpr ⟨r, c, d1⟩ ⟨r, c, d2⟩ ⟨r, c, dm⟩ =
      .ok ⟨r, c, fun i j ch =>
        d1 (bidx r (bidx r i)) (bidx c (bidx c j)) ch *
            (1 - dm (bidx r (bidx r i)) (bidx c (bidx c j)) ch) +
          d2 (bidx r (bidx r i)) (bidx c (bidx c j)) ch *
            dm (bidx r (bidx r i)) (bidx c (bidx c j)) ch⟩ := by
  simp [blendExpr, npMul, npAdd, npOneSub, npBin, bcast]

/-- On spatially matching inputs the blend expression succeeds, keeps the
shape, and computes `img1*(1-mask) + img2*mask` pointwise (in range the
broadcast indices are the plain indices). -/
theorem blendExpr_ok (img1 img2 mask : Arr3) (h1r : img1.rows = mask.rows)
    (h1c : img1.cols = mask.cols) (h2r : img2.rows = mask.rows) (h2c : img2.cols = mask.cols) :
    ∃ T, blendExpr img1 img2 mask = .ok T ∧ T.rows = mask.rows ∧ T.cols = mask.cols ∧
      ∀ i j ch, ∃ p q,
        T.data i j ch =
          img1.data p q ch * (1 - mask.data p q ch) + img2.data p q ch * mask.data p q ch ∧
        (i < mask.rows → j < mask.cols → p = i ∧ q = j) := by
  obtain ⟨r1, c1, d1⟩ := img1
  obtain ⟨r2, c2, d2⟩ := img2
  obtain ⟨rm, cm, dm⟩ := mask
  dsimp only at h1r h1c h2r h2c ⊢
  subst h1r h1c h2r h2c
  refine ⟨_, blendExpr_core _ _ d1 d2 dm, rfl, rfl, ?_⟩
  intro i j ch
  dsimp only
  refine ⟨_, _, rfl, fun hi hj => ?_⟩
  rw [bidx_bidx, bidx_bidx, bidx_lt hi, bidx_lt hj]
  exact ⟨rfl, rfl⟩

/-- If the second image's row extent neither matches the mask's nor is
broadcastable (neither extent is 1), the blend expression evaluates its first
product and then fails with numpy's `ValueError`. -/
theorem blendExpr_mismatch (img1 img2 mask : Arr3) (h1r : img1.rows = mask.rows)
    (h1c : img1.cols = mask.cols) (h2 : img2.rows ≠ mask.rows) (h21 : img2.rows ≠ 1)
    (hm1 : mask.rows ≠ 1) : blendExpr img1 img2 mask = .error .valueError := by
  obtain ⟨r1, c1, d1⟩ := img1
  obtain ⟨r2, c2, d2⟩ := img2
  obtain ⟨rm, cm, dm⟩ := mask
  dsimp only at h1r h1c h2 h21 hm1
  subst h1r h1c
  simp [blendExpr, npMul, npOneSub, npBin, bcast, h2, h21, hm1]

theorem mixMask_rows (size : Nat) (s : RandStream) (k : Nat) : (mixMask size s k).rows = size :=
  rfl

theorem mixMask_cols (size : Nat) (s : RandStream) (k : Nat) : (mixMask size s k).cols = size :=
  rfl

/-- Every channel of the mask built by `mix` holds the one metaball field
drawn with `ball_size = uniform(0.1, 0.5)`. -/
theorem mixMask_data (size : Nat) (s : RandStream) (k : Nat) (i j : Nat) (c : Fin 3) :
    (mixMask size s k).data i j c =
      random_metaball size size 4 (uniformAB (1 / 10) (1 / 2) s k) s (k + 1) i j := by
  fin_cases c <;> simp [mixMask, setChan, np_zeros]

theorem falloff_nonneg (scale d2 : ℚ) (hd2 : 0 ≤ d2) : 0 ≤ falloff scale d2 := by
  unfold falloff
  positivity

theorem metaballTotal_nonneg (width height count : Nat) (rs : ℚ) (s : RandStream) (k i j : Nat) :
    0 ≤ metaballTotal width height count rs s k i j := by
  refine listSum_map_nonneg _ _ (fun m _ => falloff_nonneg _ _ ?_)
  positivity

/-- The squashed metaball field always lies in `[0, 1)`. -/
theorem random_metaball_bounds (width height count : Nat) (rs : ℚ) (s : RandStream) (k i j : Nat) :
    0 ≤ random_metaball width height count rs s k i j ∧
      random_metaball width height count rs s k i j < 1 := by
  have ht := metaballTotal_nonneg width height count rs s k i j
  unfold random_metaball
  constructor
  · exact div_nonneg ht (by linarith)
  · rw [div_lt_one (by linarith)]
    linarith

/-! ### Noise, smoothing and turbulence bounds -/

theorem smoothNoise_data (g : Grid) (w i j : Nat) :
    (smoothNoise g w).data i j =
      ((winIdx g.n w i).map (fun a => ((winIdx g.n w j).map (fun b => g.data a b)).sum)).sum /
        (((winIdx g.n w i).length * (winIdx g.n w j).length : Nat) : ℚ) := rfl

theorem mem_winIdx_lt {n w i t : Nat} (h : t ∈ winIdx n w i) : t < n := by
  simp only [winIdx, List.mem_filter, List.mem_range, decide_eq_true_eq] at h
  exact h.1

theorem self_mem_winIdx {n w i : Nat} (hi : i < n) : i ∈ winIdx n w i := by
  simp only [winIdx, List.mem_filter, List.mem_range, decide_eq_true_eq]
  exact ⟨hi, Nat.sub_le _ _, Nat.le_add_right _ _⟩

theorem noiseGrid_bounds (n : Nat) (s : RandStream) (k : Nat) (hs : validStream s) (i j : Nat) :
    0 ≤ (noiseGrid n s k).data i j ∧ (noiseGrid n s k).data i j ≤ 1 :=
  ⟨(hs _).1, le_of_lt (hs _).2⟩

/-- A truncated-window average of values in `[0,1]` stays in `[0,1]`. -/
theorem smoothNoise_bounds (g : Grid) (w : Nat)
    (hg : ∀ a b, a < g.n → b < g.n → 0 ≤ g.data a b ∧ g.data a b ≤ 1) (i j : Nat) :
    0 ≤ (smoothNoise g w).data i j ∧ (smoothNoise g w).data i j ≤ 1 := by
  rw [smoothNoise_data]
  have hI : ∀ a ∈ winIdx g.n w i, ∀ b ∈ winIdx g.n w j, 0 ≤ g.data a b ∧ g.data a b ≤ 1 :=
    fun a ha b hb => hg a b (mem_winIdx_lt ha) (mem_winIdx_lt hb)
  have hinner : ∀ a ∈ winIdx g.n w i,
      0 ≤ ((winIdx g.n w j).map (fun b => g.data a b)).sum ∧
        ((winIdx g.n w j).map (fun b => g.data a b)).sum ≤ ((winIdx g.n w j).length : ℚ) := by
    intro a ha
    constructor
    · exact listSum_map_nonneg _ _ (fun b hb => (hI a ha b hb).1)
    · calc ((winIdx g.n w j).map (fun b => g.data a b)).sum
          ≤ ((winIdx g.n w j).map (fun _ => (1 : ℚ))).sum :=
            listSum_map_le _ _ _ (fun b hb => (hI a ha b hb).2)
        _ = ((winIdx g.n w j).length : ℚ) * 1 := listSum_map_const _ _
        _ = ((winIdx g.n w j).length : ℚ) := mul_one _
  have houter0 : 0 ≤
      ((winIdx g.n w i).map (fun a => ((winIdx g.n w j).map (fun b => g.data a b)).sum)).sum :=
    listSum_map_nonneg _ _ (fun a ha => (hinner a ha).1)
  have houter1 :
      ((winIdx g.n w i).map (fun a => ((winIdx g.n w j).map (fun b => g.data a b)).sum)).sum ≤
        ((winIdx g.n w i).length : ℚ) * ((winIdx g.n w j).length : ℚ) := by
    calc ((winIdx g.n w i).map (fun a => ((winIdx g.n w j).map (fun b => g.data a b)).sum)).sum
        ≤ ((winIdx g.n w i).map (fun _ => ((winIdx g.n w j).length : ℚ))).sum :=
          listSum_map_le _ _ _ (fun a ha => (hinner a ha).2)
      _ = ((winIdx g.n w i).length : ℚ) * ((winIdx g.n w j).length : ℚ) := listSum_map_const _ _
  constructor
  · exact div_nonneg houter0 (by positivity)
  · refine div_le_one_of_le ?_ (by positivity)
    push_cast
    exact houter1

theorem turbulence_data (size depth sc : Nat) (s : RandStream) (k i j : Nat) :
    (turbulence size depth sc s k).data i j =
      (((List.range depth).map
          (fun m => (1 / 2 ^ m : ℚ) *
            (smoothNoise (noiseGrid size s k) (sc * 2 ^ m)).data i j)).sum) /
        (((List.range depth).map (fun m => (1 / 2 ^ m : ℚ))).sum) := rfl

/-- The weight-normalized octave sum stays in `[0,1]`. -/
theorem turbulence_bounds (size depth sc : Nat) (s : RandStream) (k : Nat)
    (hs : validStream s) (i j : Nat) :
    0 ≤ (turbulence size depth sc s k).data i j ∧ (turbulence size depth sc s k).data i j ≤ 1 := by
  rw [turbulence_data]
  have hsm : ∀ m : Nat,
      0 ≤ (smoothNoise (noiseGrid size s k) (sc * 2 ^ m)).data i j ∧
        (smoothNoise (noiseGrid size s k) (sc * 2 ^ m)).data i j ≤ 1 :=
    fun m => smoothNoise_bounds _ _ (fun a b _ _ => noiseGrid_bounds size s k hs a b) i j
  have hnum0 : 0 ≤ ((List.range depth).map
      (fun m => (1 / 2 ^ m : ℚ) *
        (smoothNoise (noiseGrid size s k) (sc * 2 ^ m)).data i j)).sum :=
    listSum_map_nonneg _ _ (fun m _ => mul_nonneg (by positivity) (hsm m).1)
  have hden0 : 0 ≤ ((List.range depth).map (fun m => (1 / 2 ^ m : ℚ))).sum :=
    listSum_map_nonneg _ _ (fun m _ => by positivity)
  have hnumden : ((List.range depth).map
      (fun m => (1 / 2 ^ m : ℚ) *
        (smoothNoise (noiseGrid size s k) (sc * 2 ^ m)).data i j)).sum ≤
      ((List.range depth).map (fun m => (1 / 2 ^ m : ℚ))).sum :=
    listSum_map_le _ _ _ (fun m _ => mul_le_of_le_one_right (by positivity) (hsm m).2)
  exact ⟨div_nonneg hnum0 hden0, div_le_one_of_le hnumden hden0⟩

theorem turbulence_rgb_data (size : Nat) (s : RandStream) (k i j : Nat) (c : Fin 3) :
    (turbulence_rgb size s k).data i j c =
      (turbulence size 7 3 s (k + c.val * (size * size))).data i j := rfl

theorem turbulence_rgb_bounds (size : Nat) (s : RandStream) (k : Nat) (hs : validStream s)
    (i j : Nat) (c : Fin 3) :
    0 ≤ (turbulence_rgb size s k).data i j c ∧ (turbulence_rgb size s k).data i j c ≤ 1 := by
  rw [turbulence_rgb_data]
  exact turbulence_bounds size 7 3 s _ hs i j

/-! ### The compositing pipeline invariant -/

theorem random_color_data (L : Nat) (s : RandStream) (k i j : Nat) (c : Fin 3) :
    (random_color L s k).data i j c = s (k + c.val) := rfl

theorem random_image_bounds (size : Nat) (s : RandStream) (k : Nat) (hs : validStream s) :
    InRange2 (random_image size s k).1 size := by
  unfold random_image
  split
  · refine ⟨rfl, rfl, fun i j c => ?_⟩
    rw [random_color_data]
    exact ⟨(hs _).1, lt_trans (hs _).2 (by norm_num)⟩
  · refine ⟨rfl, rfl, fun i j c => ?_⟩
    have ht := turbulence_rgb_bounds size s (k + 1) hs i j c
    have hm0 : 0 ≤ uniformAB 0 2 s (k + 1 + turbDraws size) := by
      unfold uniformAB
      have := (hs (k + 1 + turbDraws size)).1
      linarith
    have hm2 : uniformAB 0 2 s (k + 1 + turbDraws size) < 2 := by
      unfold uniformAB
      have := (hs (k + 1 + turbDraws size)).2
      linarith
    constructor
    · exact mul_nonneg ht.1 hm0
    · calc (turbulence_rgb size s (k + 1)).data i j c * uniformAB 0 2 s (k + 1 + turbDraws size)
          ≤ uniformAB 0 2 s (k + 1 + turbDraws size) := mul_le_of_le_one_left hm0 ht.2
        _ < 2 := hm2

/-- On two `size × size` images in range, `mix` succeeds and returns a
`size × size` image in range. -/
theorem mix_preserves (img1 img2 : Arr3) (size : Nat) (s : RandStream) (k : Nat)
    (h1 : InRange2 img1 size) (h2 : InRange2 img2 size) :
    ∃ T, mix img1 img2 size s k = .ok T ∧ InRange2 T size := by
  obtain ⟨T, hT, hr, hc, hdata⟩ :=
    blendExpr_ok img1 img2 (mixMask size s k)
      (by rw [h1.1, mixMask_rows]) (by rw [h1.2.1, mixMask_cols])
      (by rw [h2.1, mixMask_rows]) (by rw [h2.2.1, mixMask_cols])
  refine ⟨T, hT, ?_, ?_, ?_⟩
  · rw [hr, mixMask_rows]
  · rw [hc, mixMask_cols]
  · intro i j c
    obtain ⟨p, q, heq, -⟩ := hdata i j c
    rw [heq, mixMask_data]
    have hmb := random_metaball_bounds size size 4 (uniformAB (1 / 10) (1 / 2) s k) s (k + 1) p q
    have ha := h1.2.2 p q c
    have hb := h2.2.2 p q c
    constructor
    · have := mul_nonneg ha.1 (by linarith : (0 : ℚ) ≤
        1 - random_metaball size size 4 (uniformAB (1 / 10) (1 / 2) s k) s (k + 1) p q)
      have := mul_nonneg hb.1 hmb.1
      linarith
    · nlinarith [ha.1, ha.2, hb.1, hb.2, hmb.1, hmb.2]

/-- The blending loop preserves the invariant and never fails on in-range
accumulators. -/
theorem randBGAux_ok (size : Nat) (s : RandStream) (hs : validStream s) :
    ∀ (n : Nat) (T : Arr3) (k : Nat), InRange2 T size →
      ∃ U, randBGAux size s n T k = .ok U ∧ InRange2 U size := by
  intro n
  induction n with
  | zero => exact fun T k hT => ⟨T, rfl, hT⟩
  | succ m ih =>
    intro T k hT
    obtain ⟨T2, hmix, hT2⟩ :=
      mix_preserves T (random_image size s k).1 size s (random_image size s k).2 hT
        (random_image_bounds size s k hs)
    obtain ⟨U, hU, hIU⟩ := ih T2 ((random_image size s k).2 + 9) hT2
    refine ⟨U, ?_, hIU⟩
    simp only [randBGAux, hmix]
    exact hU

/-- `rand_background` always succeeds and returns a `size × size` image with
all values in `[0, 2)`. -/
theorem rand_background_ok (N size : Nat) (s : RandStream) (hs : validStream s) :
    ∃ T, rand_background N size s = .ok T ∧ InRange2 T size :=
  randBGAux_ok size s hs N (random_image size s 0).1 (random_image size s 0).2
    (random_image_bounds size s 0 hs)

/-! ### Variance of row-constant grids -/

theorem rowSum_congr (n : Nat) (f g : Nat → ℚ) (h : ∀ j, j < n → f j = g j) :
    rowSum n f = rowSum n g := by
  unfold rowSum
  rw [listMap_congr _ f g (fun a ha => h a (List.mem_range.1 ha))]

theorem rowSum_const (n : Nat) (c : ℚ) : rowSum n (fun _ => c) = n * c := by
  unfold rowSum
  rw [listSum_map_const]
  simp

/-- The mean of a grid whose rows all carry the same pattern is the mean of
the pattern. -/
theorem gridMean_rowConst (n : Nat) (f : Nat → ℚ) (g : Grid) (hn : g.n = n) (hn0 : n ≠ 0)
    (h : ∀ i j, i < n → j < n → g.data i j = f j) : gridMean g = rowMean n f := by
  subst hn
  unfold gridMean rowMean
  rw [rowSum_congr g.n _ (fun _ => rowSum g.n f)
      (fun i hi => rowSum_congr g.n _ _ (fun j hj => h i j hi hj)),
    rowSum_const]
  push_cast
  exact mul_div_mul_left _ _ (Nat.cast_ne_zero.2 hn0)

/-- The variance of a grid whose rows all carry the same pattern is the
variance of the pattern. -/
theorem gridVar_rowConst (n : Nat) (f : Nat → ℚ) (g : Grid) (hn : g.n = n) (hn0 : n ≠ 0)
    (h : ∀ i j, i < n → j < n → g.data i j = f j) : gridVar g = rowVar n f := by
  have hmean := gridMean_rowConst n f g hn hn0 h
  subst hn
  unfold gridVar rowVar
  rw [hmean]
  rw [rowSum_congr g.n _ (fun _ => rowSum g.n (fun j => (f j - rowMean g.n f) ^ 2))
      (fun i hi => rowSum_congr g.n _ _ (fun j hj => by rw [h i j hi hj])),
    rowSum_const]
  push_cast
  exact mul_div_mul_left _ _ (Nat.cast_ne_zero.2 hn0)

/-- Smoothing a row-constant grid gives the one-dimensional truncated-window
average of the row pattern. -/
theorem smoothNoise_rowConst (n w : Nat) (f : Nat → ℚ) (i j : Nat) (hi : i < n) :
    (smoothNoise ⟨n, fun _ j => f j⟩ w).data i j = smoothRow n w f j := by
  rw [smoothNoise_data]
  dsimp only
  rw [listMap_congr (winIdx n w i) _ (fun _ => ((winIdx n w j).map f).sum) (fun a _ => rfl),
    listSum_map_const]
  unfold smoothRow
  push_cast
  have hI0 : (winIdx n w i).length ≠ 0 := by
    intro hlen
    have hmem := self_mem_winIdx (w := w) hi
    rw [List.length_eq_zero] at hlen
    rw [hlen] at hmem
    exact (List.not_mem_nil i) hmem
  exact mul_div_mul_left _ _ (Nat.cast_ne_zero.2 hI0)

/-! ### The claims

Concrete evaluations below reduce rational arithmetic in the kernel; the
core arithmetic on `Rat` is restored to its default reducibility for that. -/

attribute [local semireducible] Rat.add Rat.mul Rat.sub Rat.inv

theorem halfS_valid : validStream halfS := by
  intro n
  unfold halfS
  norm_num

theorem c1s_valid : validStream c1s := by
  intro n
  unfold c1s
  split <;> norm_num

/-- Claim C1, amended: for every `layers ≥ 0` and every size,
`rand_background(layers, size)` returns an image of shape `(size, size, 3)`
in which every value lies in `[0, 2)` — not `[0, 1]`: the turbulence branch
of `random_image` scales a `[0,1]` turbulence image by `uniform(0, 2.0)`. -/
theorem claim_C1 (N size : Nat) (s : RandStream) (hs : validStream s) :
    ∃ T, rand_background N size s = .ok T ∧ T.rows = size ∧ T.cols = size ∧
      ∀ i j c, 0 ≤ T.data i j c ∧ T.data i j c < 2 := by
  obtain ⟨T, hT, h1, h2, h3⟩ := rand_background_ok N size s hs
  exact ⟨T, hT, h1, h2, h3⟩

/-- Witness for C1 at `layers = 3`, `size = 300` and the constant stream. -/
theorem claim_C1_witness :
    ∃ T, rand_background 3 300 halfS = .ok T ∧ T.rows = 300 ∧ T.cols = 300 ∧
      ∀ i j c, 0 ≤ T.data i j c ∧ T.data i j c < 2 :=
  claim_C1 3 300 halfS halfS_valid

set_option maxRecDepth 100000 in
/-- Counterexample to C1 as stated: with the valid stream `c1s` (first draw 0
forces the turbulence branch, later draws are 9/10), `rand_background 0 1`
returns the pixel value `(9/10) * (2 * 9/10) = 81/50 > 1`, outside `[0,1]`. -/
theorem claim_C1_counterexample :
    validStream c1s ∧
      ∃ T, rand_background 0 1 c1s = .ok T ∧ T.data 0 0 0 = 81 / 50 ∧ 1 < T.data 0 0 0 :=
  ⟨c1s_valid, (random_image 1 c1s 0).1, rfl, by decide, by decide⟩

/-- Claim C2: on same-sized inputs `mix` succeeds and returns, at every pixel
and channel, `img1*(1-mask) + img2*mask` for the mask it draws. -/
theorem claim_C2 (img1 img2 : Arr3) (size : Nat) (s : RandStream) (k : Nat)
    (h1r : img1.rows = size) (h1c : img1.cols = size)
    (h2r : img2.rows = size) (h2c : img2.cols = size) :
    ∃ T, mix img1 img2 size s k = .ok T ∧ T.rows = size ∧ T.cols = size ∧
      ∀ i j c, i < size → j < size →
        T.data i j c = img1.data i j c * (1 - (mixMask size s k).data i j c) +
          img2.data i j c * (mixMask size s k).data i j c := by
  obtain ⟨T, hT, hr, hc, hdata⟩ :=
    blendExpr_ok img1 img2 (mixMask size s k)
      (by rw [h1r, mixMask_rows]) (by rw [h1c, mixMask_cols])
      (by rw [h2r, mixMask_rows]) (by rw [h2c, mixMask_cols])
  refine ⟨T, hT, by rw [hr, mixMask_rows], by rw [hc, mixMask_cols], ?_⟩
  intro i j c hi hj
  obtain ⟨p, q, heq, hpq⟩ := hdata i j c
  obtain ⟨hp, hq⟩ := hpq (by rw [mixMask_rows]; exact hi) (by rw [mixMask_cols]; exact hj)
  rw [heq, hp, hq]

/-- Witness for C2 on two concrete 1×1 images. -/
theorem claim_C2_witness :
    ∃ T, mix (constArr 1 (1 / 4)) (constArr 1 (1 / 3)) 1 halfS 0 = .ok T ∧
      T.rows = 1 ∧ T.cols = 1 ∧
      ∀ i j c, i < 1 → j < 1 →
        T.data i j c = (constArr 1 (1 / 4)).data i j c * (1 - (mixMask 1 halfS 0).data i j c) +
          (constArr 1 (1 / 3)).data i j c * (mixMask 1 halfS 0).data i j c :=
  claim_C2 (constArr 1 (1 / 4)) (constArr 1 (1 / 3)) 1 halfS 0 rfl rfl rfl rfl

/-- Claim C3: with `layers = 0` the blending loop body never runs and
`rand_background` returns the initially drawn base image unmodified. -/
theorem claim_C3 (size : Nat) (s : RandStream) :
    rand_background 0 size s = .ok (random_image size s 0).1 := rfl

/-- Claim C4, amended: `mix` contains no dimension check and no
`DimensionMismatchError` exists in the code; on a second image whose spatial
extent neither matches `size` nor broadcasts, the elementwise product raises
numpy's `ValueError`. -/
theorem claim_C4 (img1 img2 : Arr3) (size : Nat) (s : RandStream) (k : Nat)
    (h1r : img1.rows = size) (h1c : img1.cols = size)
    (h2 : img2.rows ≠ size) (h21 : img2.rows ≠ 1) (hs1 : size ≠ 1) :
    mix img1 img2 size s k = .error .valueError :=
  blendExpr_mismatch img1 img2 (mixMask size s k)
    (by rw [h1r, mixMask_rows]) (by rw [h1c, mixMask_cols])
    (by rw [mixMask_rows]; exact h2) h21 (by rw [mixMask_rows]; exact hs1)

/-- Witness for C4 on the spec's 300×300×3 versus 200×200×3 scenario. -/
theorem claim_C4_witness :
    mix (constArr 300 0) (constArr 200 0) 300 halfS 0 = .error .valueError :=
  claim_C4 (constArr 300 0) (constArr 200 0) 300 halfS 0 rfl rfl (by decide) (by decide)
    (by decide)

/-- Counterexample to C4 as stated: blending the 300×300×3 image with the
200×200×3 image yields `ValueError`, not `DimensionMismatchError`. -/
theorem claim_C4_counterexample :
    mix (constArr 300 0) (constArr 200 0) 300 halfS 0 = .error .valueError ∧
      mix (constArr 300 0) (constArr 200 0) 300 halfS 0 ≠ .error .dimensionMismatchError := by
  refine ⟨rfl, fun h => ?_⟩
  rw [show mix (constArr 300 0) (constArr 200 0) 300 halfS 0 = .error .valueError from rfl] at h
  simp at h

/-- Claim C5: blending an image with itself returns the image at every
in-range pixel, whatever the mask values are. -/
theorem claim_C5 (A mask : Arr3) (hr : mask.rows = A.rows) (hc : mask.cols = A.cols) :
    ∃ T, blendExpr A A mask = .ok T ∧ T.rows = A.rows ∧ T.cols = A.cols ∧
      ∀ i j c, i < A.rows → j < A.cols → T.data i j c = A.data i j c := by
  obtain ⟨T, hT, hTr, hTc, hdata⟩ := blendExpr_ok A A mask hr.symm hc.symm hr.symm hc.symm
  refine ⟨T, hT, by rw [hTr, hr], by rw [hTc, hc], ?_⟩
  intro i j c hi hj
  obtain ⟨p, q, heq, hpq⟩ := hdata i j c
  obtain ⟨hp, hq⟩ := hpq (by rw [hr]; exact hi) (by rw [hc]; exact hj)
  rw [heq, hp, hq]
  ring

/-- Witness for C5 on a concrete 2×2 image and mask. -/
theorem claim_C5_witness :
    ∃ T, blendExpr (constArr 2 (3 / 4)) (constArr 2 (3 / 4)) (constArr 2 (1 / 3)) = .ok T ∧
      T.rows = (constArr 2 (3 / 4)).rows ∧ T.cols = (constArr 2 (3 / 4)).cols ∧
      ∀ i j c, i < (constArr 2 (3 / 4)).rows → j < (constArr 2 (3 / 4)).cols →
        T.data i j c = (constArr 2 (3 / 4)).data i j c :=
  claim_C5 (constArr 2 (3 / 4)) (constArr 2 (1 / 3)) rfl rfl

/-- Claim C6: a zero mask returns the first image and an all-ones mask the
second, at every in-range pixel. -/
theorem claim_C6 (A B mask0 mask1 : Arr3)
    (hBr : B.rows = A.rows) (hBc : B.cols = A.cols)
    (h0r : mask0.rows = A.rows) (h0c : mask0.cols = A.cols)
    (h1r : mask1.rows = A.rows) (h1c : mask1.cols = A.cols)
    (hz : ∀ i j c, i < A.rows → j < A.cols → mask0.data i j c = 0)
    (ho : ∀ i j c, i < A.rows → j < A.cols → mask1.data i j c = 1) :
    (∃ T, blendExpr A B mask0 = .ok T ∧
      ∀ i j c, i < A.rows → j < A.cols → T.data i j c = A.data i j c) ∧
    (∃ T, blendExpr A B mask1 = .ok T ∧
      ∀ i j c, i < A.rows → j < A.cols → T.data i j c = B.data i j c) := by
  constructor
  · obtain ⟨T, hT, hTr, hTc, hdata⟩ :=
      blendExpr_ok A B mask0 h0r.symm h0c.symm (by rw [hBr, h0r]) (by rw [hBc, h0c])
    refine ⟨T, hT, fun i j c hi hj => ?_⟩
    obtain ⟨p, q, heq, hpq⟩ := hdata i j c
    obtain ⟨hp, hq⟩ := hpq (by rw [h0r]; exact hi) (by rw [h0c]; exact hj)
    rw [heq, hp, hq, hz i j c hi hj]
    ring
  · obtain ⟨T, hT, hTr, hTc, hdata⟩ :=
      blendExpr_ok A B mask1 h1r.symm h1c.symm (by rw [hBr, h1r]) (by rw [hBc, h1c])
    refine ⟨T, hT, fun i j c hi hj => ?_⟩
    obtain ⟨p, q, heq, hpq⟩ := hdata i j c
    obtain ⟨hp, hq⟩ := hpq (by rw [h1r]; exact hi) (by rw [h1c]; exact hj)
    rw [heq, hp, hq, ho i j c hi hj]
    ring

/-- Witness for C6 on concrete 1×1 images with the two extreme masks. -/
theorem claim_C6_witness :
    (∃ T, blendExpr (constArr 1 (2 / 5)) (constArr 1 (3 / 5)) (constArr 1 0) = .ok T ∧
      ∀ i j c, i < (constArr 1 (2 / 5)).rows → j < (constArr 1 (2 / 5)).cols →
        T.data i j c = (constArr 1 (2 / 5)).data i j c) ∧
    (∃ T, blendExpr (constArr 1 (2 / 5)) (constArr 1 (3 / 5)) (constArr 1 1) = .ok T ∧
      ∀ i j c, i < (constArr 1 (2 / 5)).rows → j < (constArr 1 (2 / 5)).cols →
        T.data i j c = (constArr 1 (3 / 5)).data i j c) :=
  claim_C6 (constArr 1 (2 / 5)) (constArr 1 (3 / 5)) (constArr 1 0) (constArr 1 1)
    rfl rfl rfl rfl rfl rfl (fun _ _ _ _ _ => rfl) (fun _ _ _ _ _ => rfl)

/-- Claim C7 (spec-modelled `turbulence` module): `generate_noise(size)`
returns a `size × size` grid of values in `[0,1]` for positive sizes and
fails with `InvalidDimensionError` for `size ≤ 0`. -/
theorem claim_C7 (size : Int) (s : RandStream) (k : Nat) (hs : validStream s) :
    (0 < size → ∃ g, generate_noise size s k = .ok g ∧ (g.n : Int) = size ∧
      ∀ i j, 0 ≤ g.data i j ∧ g.data i j ≤ 1) ∧
    (size ≤ 0 → generate_noise size s k = .error .invalidDimensionError) := by
  constructor
  · intro hpos
    refine ⟨noiseGrid size.toNat s k, ?_, ?_, fun i j => noiseGrid_bounds _ s k hs i j⟩
    · unfold generate_noise
      rw [if_neg (not_le.2 hpos)]
    · simp [noiseGrid, Int.toNat_of_nonneg hpos.le]
  · intro hneg
    unfold generate_noise
    rw [if_pos hneg]

/-- Witness for C7 at `size = 3` and `size = -2`. -/
theorem claim_C7_witness :
    (∃ g, generate_noise 3 halfS 0 = .ok g ∧ (g.n : Int) = 3 ∧
      ∀ i j, 0 ≤ g.data i j ∧ g.data i j ≤ 1) ∧
      generate_noise (-2) halfS 0 = .error .invalidDimensionError :=
  ⟨(claim_C7 3 halfS 0 halfS_valid).1 (by norm_num),
    (claim_C7 (-2) halfS 0 halfS_valid).2 (by norm_num)⟩

/-- Claim C8, amended: smoothing preserves the shape and the `[0,1]` bound of
a noise grid; the claim's variance clause fails in general (see the
counterexample: truncated boundary windows can increase the variance). -/
theorem claim_C8 (g : Grid) (w : Nat) (_hw : 1 ≤ w)
    (hg : ∀ a b, a < g.n → b < g.n → 0 ≤ g.data a b ∧ g.data a b ≤ 1) :
    (smoothNoise g w).n = g.n ∧
      ∀ i j, 0 ≤ (smoothNoise g w).data i j ∧ (smoothNoise g w).data i j ≤ 1 :=
  ⟨rfl, fun i j => smoothNoise_bounds g w hg i j⟩

/-- Witness for C8 on a concrete constant 2×2 grid with window 1. -/
theorem claim_C8_witness :
    (smoothNoise (gridConst 2 (1 / 2)) 1).n = (gridConst 2 (1 / 2)).n ∧
      ∀ i j, 0 ≤ (smoothNoise (gridConst 2 (1 / 2)) 1).data i j ∧
        (smoothNoise (gridConst 2 (1 / 2)) 1).data i j ≤ 1 :=
  claim_C8 (gridConst 2 (1 / 2)) 1 (le_refl 1) (fun a b _ _ => by unfold gridConst; norm_num)

set_option maxRecDepth 100000 in
/-- Counterexample to C8 as stated: `cexGrid` is a 29×29 grid with values in
`[0,1]`, and smoothing it with window 1 strictly increases the population
variance (`np.var`), because the truncated boundary windows re-weight the
edge cells. -/
theorem claim_C8_counterexample :
    (∀ i, i < cexGrid.n → ∀ j, j < cexGrid.n →
      0 ≤ cexGrid.data i j ∧ cexGrid.data i j ≤ 1) ∧
      gridVar cexGrid < gridVar (smoothNoise cexGrid 1) := by
  refine ⟨by decide, ?_⟩
  have h1 : gridVar cexGrid = rowVar 29 cexRow :=
    gridVar_rowConst 29 cexRow cexGrid rfl (by norm_num) (fun i j _ _ => rfl)
  have h2 : gridVar (smoothNoise cexGrid 1) = rowVar 29 (smoothRow 29 1 cexRow) :=
    gridVar_rowConst 29 (smoothRow 29 1 cexRow) (smoothNoise cexGrid 1) rfl (by norm_num)
      (fun i j hi _ => smoothNoise_rowConst 29 1 cexRow i j hi)
  rw [h1, h2]
  decide

/-- Claim C9: every value of every image `rand_background` returns is
nonnegative; the invariant is preserved by the solid draw, the turbulence
draw and every blend iteration. -/
theorem claim_C9 (N size : Nat) (s : RandStream) (hs : validStream s) :
    ∃ T, rand_background N size s = .ok T ∧ ∀ i j c, 0 ≤ T.data i j c := by
  obtain ⟨T, hT, -, -, h3⟩ := rand_background_ok N size s hs
  exact ⟨T, hT, fun i j c => (h3 i j c).1⟩

/-- Witness for C9 at 2 layers of size 4. -/
theorem claim_C9_witness :
    ∃ T, rand_background 2 4 halfS = .ok T ∧ ∀ i j c, 0 ≤ T.data i j c :=
  claim_C9 2 4 halfS halfS_valid

/-- Claim C10: every channel of the blend mask `mix` builds holds the same
single metaball field, so the three channels are identical and every pixel's
R, G and B are interpolated with one scalar weight. -/
theorem claim_C10 (size : Nat) (s : RandStream) (k i j : Nat) (c : Fin 3) :
    (mixMask size s k).data i j c =
      random_metaball size size 4 (uniformAB (1 / 10) (1 / 2) s k) s (k + 1) i j :=
  mixMask_data size s k i j c
